import Mathlib

/-!
Verification of the sessio focus-tracking core (session engine, playback
engine, volume-ducking coordinator, and the persisted daily-session format)
against its natural-language specification.

The Rust source is shallowly embedded: machine instants are `Nat` ticks
(`std::time::Instant` supports only ordering and saturating subtraction,
which `Nat` subtraction models), `std::time::Duration` values are `Nat`
seconds, and the remaining time of the timer is carried as an `Int` so that
the non-negativity invariant of the spec is a genuine statement rather than
a typing artifact.  Rendering, file-system and audio side effects carry no
engine state and are dropped or abstracted into explicit environment
parameters.
-/

namespace Sessio

/-! ## Calendar dates

`chrono::NaiveDate` is modelled as a year/month/day triple.  Well-formedness
(month and day ranges, which `chrono` enforces by construction) appears as
explicit hypotheses where needed. -/

structure Date where
  year : Nat
  month : Nat
  day : Nat
deriving DecidableEq, Repr

/-! ## Session engine state (src/src/timer.rs) -/

inductive PomodoroPhase where
  | Work
  | ShortBreak
  | LongBreak
deriving DecidableEq, Repr

inductive TimerState where
  | Stopped
  | Running
  | Paused
deriving DecidableEq, Repr

/-- `PomodoroSession` from timer.rs: the per-date daily aggregate. -/
structure PomodoroSession where
  date : Date
  work_sessions : Nat
  total_work_minutes : Nat
  break_sessions : Nat
  total_break_minutes : Nat
  tasks_worked_on : List String
deriving DecidableEq, Repr

/-- `Timer` from timer.rs.  Durations are in seconds; `time_remaining` is an
`Int` so the "never negative" invariant is meaningful.  The `f32` field
`alarm_volume` carries no logic (it is only forwarded to the audio sink) and
is omitted. -/
structure Timer where
  state : TimerState
  phase : PomodoroPhase
  pomodoro_count : Nat
  time_remaining : Int
  last_tick : Option Nat
  selected_todo_index : Option Nat
  work_completed_flag : Bool
  work_duration : Nat
  short_break_duration : Nat
  long_break_duration : Nat
  long_break_interval : Nat
  daily_sessions : List PomodoroSession
  current_session_start : Option Nat
  alarm_duration_seconds : Nat
  alarm_active : Bool
  alarm_end_time : Option Nat
deriving Repr, DecidableEq

/-- `Timer::new`: minute-valued configuration is converted to seconds. -/
def Timer.new (work_minutes short_break_minutes long_break_minutes : Nat)
    (sessions_until_long_break : Nat) (alarm_duration_seconds : Nat) : Timer where
  state := .Stopped
  phase := .Work
  pomodoro_count := 0
  time_remaining := (work_minutes * 60 : Nat)
  last_tick := none
  selected_todo_index := none
  work_completed_flag := false
  work_duration := work_minutes * 60
  short_break_duration := short_break_minutes * 60
  long_break_duration := long_break_minutes * 60
  long_break_interval := sessions_until_long_break
  daily_sessions := []
  current_session_start := none
  alarm_duration_seconds := alarm_duration_seconds
  alarm_active := false
  alarm_end_time := none

/-- Fresh empty `PomodoroSession` for a date, as pushed by
`Timer::get_today_session`. -/
def emptySession (d : Date) : PomodoroSession where
  date := d
  work_sessions := 0
  total_work_minutes := 0
  break_sessions := 0
  total_break_minutes := 0
  tasks_worked_on := []

/-- Update the first list element satisfying `p` (Rust's
`iter_mut().find(..)` followed by a mutation touches only the first match). -/
def updateFirst (p : α → Bool) (f : α → α) : List α → List α
  | [] => []
  | x :: xs => if p x then f x :: xs else x :: updateFirst p f xs

/-- `Timer::get_today_session` ensures a session for `today` exists (pushed
at the end of the vector if absent); the subsequent mutation through the
returned reference is modelled by `updateFirst`.  `today` stands for
`chrono::Local::now().date_naive()`. -/
def touchToday (today : Date) (f : PomodoroSession → PomodoroSession)
    (ss : List PomodoroSession) : List PomodoroSession :=
  let ss := if ss.any (fun s => s.date = today) then ss else ss ++ [emptySession today]
  updateFirst (fun s => s.date = today) f ss

/-- Read today's aggregate the way `get_today_session` exposes it: the first
entry with today's date, or a fresh one if none exists. -/
def todayAggregate (today : Date) (ss : List PomodoroSession) : PomodoroSession :=
  match ss.find? (fun s => s.date = today) with
  | some s => s
  | none => emptySession today

/-- `Timer::play_alarm` (state part only): sets the alarm flag and its end
instant.  The detached audio thread touches no engine state. -/
def Timer.play_alarm (now : Nat) (t : Timer) : Timer :=
  { t with alarm_active := true, alarm_end_time := some (now + t.alarm_duration_seconds) }

/-- The mutation `complete_phase` applies to today's session after a Work
phase: `work_sessions += 1; total_work_minutes += m`. -/
def workSessionUpd (m : Nat) (s : PomodoroSession) : PomodoroSession :=
  { s with work_sessions := s.work_sessions + 1,
           total_work_minutes := s.total_work_minutes + m }

/-- The mutation `complete_phase` applies to today's session after a break:
`break_sessions += 1; total_break_minutes += m`. -/
def breakSessionUpd (m : Nat) (s : PomodoroSession) : PomodoroSession :=
  { s with break_sessions := s.break_sessions + 1,
           total_break_minutes := s.total_break_minutes + m }

/-- `Timer::complete_phase`.  `now` is the current instant (read inside
`play_alarm`), `today` the current calendar date.  Rust's
`pomodoro_count % long_break_interval` panics when the interval is zero;
claims about the branch therefore assume a positive interval. -/
def Timer.complete_phase (now : Nat) (today : Date) (t : Timer) : Timer :=
  let t := t.play_alarm now
  let t :=
    match t.phase with
    | .Work =>
      let work_minutes := t.work_duration / 60
      let t := { t with
        daily_sessions := touchToday today (workSessionUpd work_minutes) t.daily_sessions }
      let t := if t.selected_todo_index.isSome then { t with work_completed_flag := true } else t
      let t := { t with pomodoro_count := t.pomodoro_count + 1, current_session_start := none }
      if t.pomodoro_count % t.long_break_interval = 0 then
        { t with phase := .LongBreak, time_remaining := (t.long_break_duration : Int) }
      else
        { t with phase := .ShortBreak, time_remaining := (t.short_break_duration : Int) }
    | .ShortBreak =>
      let break_minutes := t.short_break_duration / 60
      let t := { t with
        daily_sessions := touchToday today (breakSessionUpd break_minutes) t.daily_sessions }
      { t with phase := .Work, time_remaining := (t.work_duration : Int) }
    | .LongBreak =>
      let break_minutes := t.long_break_duration / 60
      let t := { t with
        daily_sessions := touchToday today (breakSessionUpd break_minutes) t.daily_sessions }
      { t with phase := .Work, time_remaining := (t.work_duration : Int) }
  { t with state := .Stopped, last_tick := none }

/-- `Timer::update`.  `Instant::duration_since` saturates at zero, which is
exactly `Nat` subtraction.  Note the Rust code assigns
`self.last_tick = Some(now)` after the branch in both cases, overwriting the
`None` that `complete_phase` stored. -/
def Timer.update (now : Nat) (today : Date) (t : Timer) : Timer :=
  if t.state ≠ .Running then t
  else
    let t' :=
      match t.last_tick with
      | some last =>
        let elapsed : Nat := now - last
        if (elapsed : Int) ≥ t.time_remaining then
          Timer.complete_phase now today { t with time_remaining := 0 }
        else
          { t with time_remaining := t.time_remaining - (elapsed : Int) }
      | none => t
    { t' with last_tick := some now }

/-- `Timer::start` (also the body of `toggle_start_pause`). -/
def Timer.start (now : Nat) (t : Timer) : Timer :=
  match t.state with
  | .Stopped | .Paused =>
    let t := { t with state := .Running, last_tick := some now }
    if t.phase = .Work ∧ t.current_session_start = none then
      { t with current_session_start := some now }
    else t
  | .Running => { t with state := .Paused, last_tick := none }

/-- `Timer::stop`. -/
def Timer.stop (t : Timer) : Timer :=
  { t with state := .Stopped, last_tick := none }

/-- The duration configured for the current phase (the `match` appearing in
`Timer::reset` and in the render progress computation). -/
def Timer.phaseDuration (t : Timer) : Nat :=
  match t.phase with
  | .Work => t.work_duration
  | .ShortBreak => t.short_break_duration
  | .LongBreak => t.long_break_duration

/-- `Timer::reset`. -/
def Timer.reset (t : Timer) : Timer :=
  { t with state := .Stopped, last_tick := none,
           time_remaining := (t.phaseDuration : Int) }

/-- `Timer::skip_phase`. -/
def Timer.skip_phase (now : Nat) (today : Date) (t : Timer) : Timer :=
  t.complete_phase now today

/-- `Timer::toggle_start_pause`. -/
def Timer.toggle_start_pause (now : Nat) (t : Timer) : Timer :=
  t.start now

/-- `Timer::set_selected_todo`. -/
def Timer.set_selected_todo (index : Option Nat) (t : Timer) : Timer :=
  { t with selected_todo_index := index }

/-- `Timer::set_selected_todo_with_task_name`: also records the task name in
today's session with set semantics. -/
def Timer.set_selected_todo_with_task_name (index : Option Nat)
    (task_name : Option String) (today : Date) (t : Timer) : Timer :=
  let t := { t with selected_todo_index := index }
  match task_name with
  | some name =>
    let ds := touchToday today (fun s =>
      if name ∈ s.tasks_worked_on then s
      else { s with tasks_worked_on := s.tasks_worked_on ++ [name] }) t.daily_sessions
    { t with daily_sessions := ds }
  | none => t

/-- `Timer::get_work_session_minutes`: whole minutes of the configured work
duration, remainder discarded. -/
def Timer.get_work_session_minutes (t : Timer) : Nat :=
  t.work_duration / 60

/-- `Timer::work_phase_just_completed`. -/
def Timer.work_phase_just_completed (t : Timer) : Bool :=
  t.work_completed_flag ∧ t.selected_todo_index.isSome

/-- `Timer::clear_work_completed_flag`. -/
def Timer.clear_work_completed_flag (t : Timer) : Timer :=
  { t with work_completed_flag := false }

/-- `Timer::load_daily_sessions`: replaces the map and restores today's
pomodoro count. -/
def Timer.load_daily_sessions (sessions : List PomodoroSession) (today : Date)
    (t : Timer) : Timer :=
  let t := { t with daily_sessions := sessions }
  match sessions.find? (fun s => s.date = today) with
  | some s => { t with pomodoro_count := s.work_sessions }
  | none => t

/-- `Timer::update_alarm_state`: returns the updated timer together with the
boolean the Rust method returns. -/
def Timer.update_alarm_state (now : Nat) (t : Timer) : Timer × Bool :=
  if t.alarm_active then
    match t.alarm_end_time with
    | some end_time =>
      if now ≥ end_time then
        ({ t with alarm_active := false, alarm_end_time := none }, false)
      else (t, true)
    | none => (t, false)
  else (t, false)

/-! ## Playback engine (src/src/track_list.rs)

File-system existence checks, audio-sink acquisition and the random number
generator are the only external effects whose results flow back into engine
state; they are abstracted into an `AudioEnv`.  The `rodio` sink mutations
(`stop`, `pause`, `play`, `set_volume`) act on the audio device and carry no
engine state. -/

inductive PlaybackMode where
  | TrackList
  | Random
  | Repeat
  | CurrentOnly
deriving DecidableEq, Repr

/-- `PlaybackMode::next`: the fixed 4-cycle. -/
def PlaybackMode.next : PlaybackMode → PlaybackMode
  | .TrackList => .Random
  | .Random => .Repeat
  | .Repeat => .CurrentOnly
  | .CurrentOnly => .TrackList

/-- `Track` from track_list.rs (duration metadata is never extracted). -/
structure Track where
  name : String
  path : String
deriving DecidableEq, Repr

/-- External-world inputs read by the playback engine: whether a path exists
on disk, whether `OutputStream::try_default`/`Sink::try_new` succeed, and the
index drawn by `rng.gen_range(0..len)` (reduced modulo the length). -/
structure AudioEnv where
  fsExists : String → Bool
  sinkOk : Bool
  randomIndex : Nat

/-- `TrackList` state fields (rendering fields such as `list_state` are
display-only; the sink handle is reduced to whether it has been acquired). -/
structure TrackList where
  tracks : List Track
  current_track : Option Nat
  selected_index : Nat
  hasSink : Bool
  is_playing : Bool
  is_paused : Bool
  playback_mode : PlaybackMode
deriving DecidableEq, Repr

/-- The run state of the playback engine as derived from its flags, exactly
as the render status line does: `is_playing && !is_paused` shows Playing,
`is_paused` shows Paused, anything else Stopped. -/
inductive PlayState where
  | Stopped
  | Playing
  | Paused
deriving DecidableEq, Repr

def TrackList.runState (tl : TrackList) : PlayState :=
  if tl.is_playing ∧ ¬ tl.is_paused then .Playing
  else if tl.is_paused then .Paused
  else .Stopped

/-- `TrackList::new` with the library scan abstracted to its resulting track
sequence (the scan reads the file system, which is outside the engine). -/
def TrackList.new (tracks : List Track) : TrackList where
  tracks := tracks
  current_track := none
  selected_index := 0
  hasSink := false
  is_playing := false
  is_paused := false
  playback_mode := .TrackList

/-- `TrackList::stop`: halts the sink and clears the playing flags.  Note it
does not modify `current_track`. -/
def TrackList.stop (tl : TrackList) : TrackList :=
  { tl with is_playing := false, is_paused := false }

/-- `TrackList::play_track`.  Returns early (a complete no-op) when the index
is out of range or the file no longer exists; otherwise stops current
playback, lazily acquires the sink, and if a sink is held starts the track. -/
def TrackList.play_track (env : AudioEnv) (index : Nat) (tl : TrackList) : TrackList :=
  if index ≥ tl.tracks.length then tl
  else
    match tl.tracks.get? index with
    | none => tl
    | some track =>
      if ¬ env.fsExists track.path then tl
      else
        let tl := tl.stop
        let tl :=
          if tl.hasSink then tl
          else if env.sinkOk then { tl with hasSink := true } else tl
        if tl.hasSink then
          { tl with current_track := some index, is_playing := true, is_paused := false }
        else tl

/-- `TrackList::play_selected`. -/
def TrackList.play_selected (env : AudioEnv) (tl : TrackList) : TrackList :=
  if tl.selected_index < tl.tracks.length then tl.play_track env tl.selected_index else tl

/-- `TrackList::move_selection_up`. -/
def TrackList.move_selection_up (tl : TrackList) : TrackList :=
  if tl.tracks.isEmpty then tl
  else if tl.selected_index = 0 then { tl with selected_index := tl.tracks.length - 1 }
  else { tl with selected_index := tl.selected_index - 1 }

/-- `TrackList::move_selection_down`. -/
def TrackList.move_selection_down (tl : TrackList) : TrackList :=
  if tl.tracks.isEmpty then tl
  else { tl with selected_index := (tl.selected_index + 1) % tl.tracks.length }

/-- `TrackList::toggle_play_pause`. -/
def TrackList.toggle_play_pause (env : AudioEnv) (tl : TrackList) : TrackList :=
  if tl.hasSink then
    if tl.is_playing ∧ ¬ tl.is_paused then { tl with is_paused := true }
    else if tl.is_paused then { tl with is_paused := false }
    else
      match tl.current_track with
      | some current => tl.play_track env current
      | none => tl.play_selected env
  else tl.play_selected env

/-- `TrackList::next_track`. -/
def TrackList.next_track (env : AudioEnv) (tl : TrackList) : TrackList :=
  if tl.tracks.isEmpty then tl
  else
    let next_index :=
      match tl.current_track with
      | some i => (i + 1) % tl.tracks.length
      | none => 0
    tl.play_track env next_index

/-- `TrackList::previous_track`. -/
def TrackList.previous_track (env : AudioEnv) (tl : TrackList) : TrackList :=
  if tl.tracks.isEmpty then tl
  else
    let prev_index :=
      match tl.current_track with
      | some i => if i = 0 then tl.tracks.length - 1 else i - 1
      | none => 0
    tl.play_track env prev_index

/-- `TrackList::cycle_playback_mode`. -/
def TrackList.cycle_playback_mode (tl : TrackList) : TrackList :=
  { tl with playback_mode := tl.playback_mode.next }

/-- `TrackList::refresh_library` with the rescan result supplied by the
environment. -/
def TrackList.refresh_library (newTracks : List Track) (tl : TrackList) : TrackList :=
  let tl := tl.stop
  { tl with tracks := newTracks, selected_index := 0, current_track := none }

/-- `TrackList::play_random_track`: `gen_range(0..len)` modelled as the
environment's draw reduced modulo the library length. -/
def TrackList.play_random_track (env : AudioEnv) (tl : TrackList) : TrackList :=
  if tl.tracks.isEmpty then tl
  else tl.play_track env (env.randomIndex % tl.tracks.length)

/-- `TrackList::handle_track_finished`: mode-dependent auto-advance. -/
def TrackList.handle_track_finished (env : AudioEnv) (tl : TrackList) : TrackList :=
  if tl.tracks.isEmpty then tl
  else
    match tl.playback_mode with
    | .TrackList =>
      match tl.current_track with
      | some current =>
        if current + 1 < tl.tracks.length then tl.play_track env (current + 1)
        else tl.stop
      | none => tl
    | .Random => tl.play_random_track env
    | .Repeat =>
      match tl.current_track with
      | some current => tl.play_track env ((current + 1) % tl.tracks.length)
      | none => tl.play_track env 0
    | .CurrentOnly =>
      match tl.current_track with
      | some current => tl.play_track env current
      | none => tl

/-- `TrackList::update_playback_state`: the per-tick poll.  `sinkEmpty` is
the sink's "is empty" report; auto-advance fires exactly when a sink is held,
it reports empty, and the engine believed it was playing (not paused). -/
def TrackList.update_playback_state (env : AudioEnv) (sinkEmpty : Bool)
    (tl : TrackList) : TrackList :=
  let should_advance := tl.hasSink ∧ sinkEmpty ∧ tl.is_playing ∧ ¬ tl.is_paused
  if should_advance then tl.handle_track_finished env else tl

/-! ## Coordinator alarm edge detection (src/src/main.rs, run loop)

Each tick reads `update_alarm_state` and compares with the previous tick's
value; volume actions are recorded rather than sent to the sink. -/

inductive VolumeAction where
  | duck
  | restore
deriving DecidableEq, Repr

/-- One iteration of the alarm coordination in `run`: given last tick's
remembered value and this tick's observed `is_alarm_active`, produce the new
remembered value and the volume calls issued. -/
def coordTick (wasActive isActive : Bool) : Bool × List VolumeAction :=
  if isActive ∧ ¬ wasActive then (isActive, [.duck])
  else if ¬ isActive ∧ wasActive then (isActive, [.restore])
  else (isActive, [])

/-- Volume calls issued over a whole sequence of ticks with the given
observed alarm values. -/
def coordRun (wasActive : Bool) : List Bool → List VolumeAction
  | [] => []
  | b :: bs => (coordTick wasActive b).2 ++ coordRun b bs

/-- Number of rising edges (false in the previous tick, true in this one). -/
def risingEdges (prev : Bool) : List Bool → Nat
  | [] => 0
  | b :: bs => (if b ∧ ¬ prev then 1 else 0) + risingEdges b bs

/-- Number of falling edges. -/
def fallingEdges (prev : Bool) : List Bool → Nat
  | [] => 0
  | b :: bs => (if ¬ b ∧ prev then 1 else 0) + fallingEdges b bs

/-! ## Persisted daily-session format (src/src/todo.rs)

`Todo::save_to_file` builds the file content as one string;
`Todo::load_from_file` walks it line by line.  Strings are handled at the
`List Char` level (every prefix involved is ASCII, so Rust's byte offsets
coincide with character offsets except for the two 3-byte legacy emoji,
noted where they occur). -/

/-- Split a character list at every occurrence of `sep` (the separator model
behind both `str::lines` and date-component splitting). -/
def splitOnChar (sep : Char) : List Char → List (List Char)
  | [] => [[]]
  | c :: cs =>
    if c = sep then [] :: splitOnChar sep cs
    else
      match splitOnChar sep cs with
      | l :: ls => (c :: l) :: ls
      | [] => [[c]]

/-- Rust's `str::lines()`: split on newline, without a trailing empty line
when the content ends in a newline. -/
def rustLines (cs : List Char) : List (List Char) :=
  let ls := splitOnChar '\n' cs
  if ls.getLast? = some [] then ls.dropLast else ls

/-- Join lines back into file content, one trailing newline per line (every
`push_str` in `save_to_file` ends its text with a newline). -/
def joinLines (ls : List (List Char)) : List Char :=
  ls.foldr (fun l acc => l ++ '\n' :: acc) []

/-- Decimal digit character; `d` is always a value `< 10` at use sites. -/
def digitChar : Nat → Char
  | 0 => '0' | 1 => '1' | 2 => '2' | 3 => '3' | 4 => '4'
  | 5 => '5' | 6 => '6' | 7 => '7' | 8 => '8' | _ => '9'

/-- Decimal rendering of a natural number (Rust's `{}` on an unsigned
integer), structurally recursive on a fuel argument so it computes by
kernel reduction. -/
def renderNatAux : Nat → Nat → List Char
  | 0, _ => []
  | fuel + 1, n =>
    if n < 10 then [digitChar n]
    else renderNatAux fuel (n / 10) ++ [digitChar (n % 10)]

def renderNat (n : Nat) : List Char :=
  renderNatAux (n + 1) n

/-- One step of decimal accumulation used by the parse model. -/
def digitStep (a : Nat) (c : Char) : Nat :=
  a * 10 + (c.toNat - 48)

/-- Model of Rust `str::parse::<u32>` on the decimal strings this format
produces: every character must be a digit and there must be at least one. -/
def parseNatChars (cs : List Char) : Option Nat :=
  if cs ≠ [] ∧ cs.all Char.isDigit then some (cs.foldl digitStep 0) else none

/-- Zero-pad on the left to width `k` (chrono's `%Y`/`%m`/`%d`/`%H`/`%M`). -/
def padLeft (k : Nat) (cs : List Char) : List Char :=
  List.replicate (k - cs.length) '0' ++ cs

/-- `NaiveDate.format("%Y-%m-%d")` for dates with a four-digit year. -/
def formatDate (d : Date) : List Char :=
  padLeft 4 (renderNat d.year) ++ '-' :: (padLeft 2 (renderNat d.month) ++ '-' :: padLeft 2 (renderNat d.day))

/-- `NaiveDate::parse_from_str(_, "%Y-%m-%d")`: three dash-separated decimal
components with the month and day in calendar range (chrono also checks the
day against the concrete month; the claims only need that the dates the
serializer emits are accepted and that garbage is rejected). -/
def parseDate (cs : List Char) : Option Date :=
  match splitOnChar '-' cs with
  | [ys, ms, ds] =>
    match parseNatChars ys, parseNatChars ms, parseNatChars ds with
    | some y, some m, some d =>
      if 1 ≤ m ∧ m ≤ 12 ∧ 1 ≤ d ∧ d ≤ 31 then some ⟨y, m, d⟩ else none
    | _, _, _ => none
  | _ => none

/-- `str::split_whitespace().next()`. -/
def splitWsNext (cs : List Char) : Option (List Char) :=
  match cs.dropWhile Char.isWhitespace with
  | [] => none
  | c :: rest => some ((c :: rest).takeWhile (fun ch => ! ch.isWhitespace))

/-- First character index at which `pat` occurs (`str::find` on an ASCII
pattern). -/
def findSub (pat : List Char) : List Char → Option Nat
  | [] => if pat = [] then some 0 else none
  | c :: cs =>
    if pat.isPrefixOf (c :: cs) then some 0
    else (findSub pat cs).map (· + 1)

/-- `WorkSession` from todo.rs; the `DateTime<Local>` timestamp is reduced to
the hour/minute pair that `%H:%M` prints. -/
structure WorkSession where
  date : Date
  minutes : Nat
  tsHour : Nat
  tsMin : Nat
deriving DecidableEq, Repr

/-- `TodoItem` from todo.rs. -/
structure TodoItem where
  task : String
  done : Bool
  focused_time : Nat
  timeline : List WorkSession
deriving DecidableEq, Repr

/-- `Todo::add_time_to_task_by_index` (the undo stack and file write are
collaborator side effects outside this claim set). -/
def addTimeToTaskByIndex (index minutes : Nat) (today : Date) (nowH nowM : Nat)
    (items : List TodoItem) : List TodoItem :=
  match items.get? index with
  | none => items
  | some it =>
    let it := { it with focused_time := it.focused_time + minutes }
    let tl :=
      if it.timeline.any (fun s => s.date = today) then
        updateFirst (fun s => s.date = today)
          (fun s => { s with minutes := s.minutes + minutes, tsHour := nowH, tsMin := nowM })
          it.timeline
      else it.timeline ++ [⟨today, minutes, nowH, nowM⟩]
    items.set index { it with timeline := tl }

/-- Lines contributed by one todo item in `save_to_file`. -/
def itemLines (it : TodoItem) : List (List Char) :=
  ((if it.done then "- [x]".data else "- [ ]".data) ++ ' ' :: it.task.data ++
    (if it.focused_time > 0 then
      " | Focused time: ".data ++ renderNat it.focused_time ++ " minutes".data
     else [])) ::
  (if it.timeline.isEmpty then [] else
    "  Timeline:".data ::
      it.timeline.map (fun s =>
        "    - ".data ++ formatDate s.date ++ ':' :: ' ' :: renderNat s.minutes ++
          " minutes at ".data ++ padLeft 2 (renderNat s.tsHour) ++ ':' :: padLeft 2 (renderNat s.tsMin)))

/-- Lines contributed by one `PomodoroSession` block in `save_to_file`
(`### date`, the four counters, the optional task list, and the blank line
from the final `content.push('\n')`). -/
def sessionLines (s : PomodoroSession) : List (List Char) :=
  ("### ".data ++ formatDate s.date) ::
  ("- Work sessions: ".data ++ renderNat s.work_sessions) ::
  ("- Total work time: ".data ++ renderNat s.total_work_minutes ++ " minutes".data) ::
  ("- Break sessions: ".data ++ renderNat s.break_sessions) ::
  ("- Total break time: ".data ++ renderNat s.total_break_minutes ++ " minutes".data) ::
  ((if s.tasks_worked_on.isEmpty then [] else
      "- Tasks worked on:".data :: s.tasks_worked_on.map (fun t => "  - ".data ++ t.data))
    ++ [[]])

/-- All lines of the file `Todo::save_to_file` writes. -/
def saveLines (items : List TodoItem) (sessions : List PomodoroSession) : List (List Char) :=
  ["# TODO List".data, []] ++ (items.map itemLines).flatten ++
    (if sessions.isEmpty then []
     else [] :: "## Pomodoro Sessions".data :: [] :: (sessions.map sessionLines).flatten)

/-- The file content `Todo::save_to_file` writes. -/
def saveContent (items : List TodoItem) (sessions : List PomodoroSession) : String :=
  String.mk (joinLines (saveLines items sessions))

/-- Result of classifying one line of the todo-item section of the file,
mirroring the `if` chain in `load_from_file`. -/
inductive ItemLineKind where
  | item (task : String) (done : Bool) (focused_time : Nat)
  | other
deriving DecidableEq, Repr

/-- The task/focused-time extraction shared by both item formats:
`rest.find(" | Focused time: ")`, slice before it, and number after it
(`time_pos + 16` skips only 16 of the pattern's 17 bytes, so the parsed
slice starts with the pattern's final space — `split_whitespace` absorbs
it). -/
def parseItemRest (rest : List Char) : String × Nat :=
  match findSub " | Focused time: ".data rest with
  | some i =>
    (String.mk (rest.take i),
     ((splitWsNext (rest.drop (i + 16))).bind parseNatChars).getD 0)
  | none => (String.mk rest, 0)

def classifyItemLine (line : List Char) : ItemLineKind :=
  if ("- [x] ".data).isPrefixOf line ∨ ("- [ ] ".data).isPrefixOf line then
    let p := parseItemRest (line.drop 6)
    .item p.1 (("- [x]".data).isPrefixOf line) p.2
  else if ("✅ ".data).isPrefixOf line ∨ ("⭕ ".data).isPrefixOf line then
    -- Rust slices `line[4..]`: four bytes, i.e. the three-byte emoji plus
    -- the space, hence two characters.
    let p := parseItemRest (line.drop 2)
    .item p.1 (("✅".data).isPrefixOf line) p.2
  else .other

/-- Result of classifying one line of the pomodoro-session section. -/
inductive SessionLineKind where
  | header (d : Option Date)
  | workSessions (v : Option Nat)
  | workTime (v : Option Nat)
  | breakSessions (v : Option Nat)
  | breakTime (v : Option Nat)
  | taskName (name : String)
  | other
deriving DecidableEq, Repr

def classifySessionLine (line : List Char) : SessionLineKind :=
  if ("### ".data).isPrefixOf line then
    .header (parseDate (line.drop 4))
  else if ("- Work sessions: ".data).isPrefixOf line then
    .workSessions (parseNatChars (line.drop 17))
  else if ("- Total work time: ".data).isPrefixOf line then
    .workTime ((splitWsNext (line.drop 19)).bind parseNatChars)
  else if ("- Break sessions: ".data).isPrefixOf line then
    .breakSessions (parseNatChars (line.drop 18))
  else if ("- Total break time: ".data).isPrefixOf line then
    .breakTime ((splitWsNext (line.drop 20)).bind parseNatChars)
  else if ("  - ".data).isPrefixOf line ∧ ¬ ("  - Tasks worked on:".data).isPrefixOf line then
    .taskName (String.mk (line.drop 4))
  else .other

/-- Loader state of the `while` loop in `load_from_file`. -/
structure LoadState where
  items : List TodoItem
  sessions : List PomodoroSession
  in_pomodoro : Bool
  current : Option PomodoroSession
deriving DecidableEq, Repr

/-- `current_session.take()` pushed into the result vector. -/
def flushCur (st : LoadState) : LoadState :=
  match st.current with
  | some s => { st with sessions := st.sessions ++ [s], current := none }
  | none => st

def applyItemLine (st : LoadState) : ItemLineKind → LoadState
  | .item task done ft =>
    { st with items := st.items ++ [{ task := task, done := done, focused_time := ft, timeline := [] }] }
  | .other => st

def applySessionLine (st : LoadState) : SessionLineKind → LoadState
  | .header od =>
    let st := flushCur st
    match od with
    | some d => { st with current := some (emptySession d) }
    | none => st
  | k =>
    match st.current with
    | none => st
    | some s =>
      match k with
      | .workSessions (some v) => { st with current := some { s with work_sessions := v } }
      | .workTime (some v) => { st with current := some { s with total_work_minutes := v } }
      | .breakSessions (some v) => { st with current := some { s with break_sessions := v } }
      | .breakTime (some v) => { st with current := some { s with total_break_minutes := v } }
      | .taskName name =>
        { st with current := some { s with tasks_worked_on := s.tasks_worked_on ++ [name] } }
      | _ => st

/-- One iteration of the `load_from_file` loop. -/
def loadStep (st : LoadState) (line : List Char) : LoadState :=
  if line = "## Pomodoro Sessions".data then { st with in_pomodoro := true }
  else if ¬ st.in_pomodoro then applyItemLine st (classifyItemLine line)
  else applySessionLine st (classifySessionLine line)

/-- The trailing `if let Some(session) = current_session` push. -/
def curList (st : LoadState) : List PomodoroSession :=
  match st.current with
  | some s => [s]
  | none => []

/-- `Todo::load_from_file` applied to in-memory content (the path expansion
and file read surround this; a read failure leaves the previous state, which
no claim concerns). -/
def loadContent (content : String) : List TodoItem × List PomodoroSession :=
  let fin := (rustLines content.data).foldl loadStep ⟨[], [], false, none⟩
  (fin.items, fin.sessions ++ curList fin)

/-! ## Public session-engine operations as a step language

Every mutation of the `Timer` reachable from the key dispatcher and the
render loop (main.rs), used to state reachability invariants. -/

inductive TimerOp where
  | toggle (now : Nat)
  | halt
  | reset
  | skip (now : Nat) (today : Date)
  | advance (now : Nat) (today : Date)
  | setTodo (index : Option Nat)
  | setTodoName (index : Option Nat) (name : Option String) (today : Date)
  | clearFlag
  | load (sessions : List PomodoroSession) (today : Date)
  | pollAlarm (now : Nat)

def TimerOp.apply (t : Timer) : TimerOp → Timer
  | .toggle now => t.toggle_start_pause now
  | .halt => t.stop
  | .reset => t.reset
  | .skip now today => t.skip_phase now today
  | .advance now today => t.update now today
  | .setTodo index => t.set_selected_todo index
  | .setTodoName index name today => t.set_selected_todo_with_task_name index name today
  | .clearFlag => t.clear_work_completed_flag
  | .load sessions today => t.load_daily_sessions sessions today
  | .pollAlarm now => (t.update_alarm_state now).1

def applyOps (ops : List TimerOp) (t : Timer) : Timer :=
  ops.foldl TimerOp.apply t

/-! ## Concrete values used by witnesses and counterexamples -/

/-- Environment in which every file exists and the sink can be acquired. -/
def allOkEnv : AudioEnv where
  fsExists := fun _ => true
  sinkOk := true
  randomIndex := 0

def trackA : Track := ⟨"a", "/music/a.mp3"⟩

def trackB : Track := ⟨"b", "/music/b.mp3"⟩

def trackC : Track := ⟨"c", "/music/c.mp3"⟩

/-- A three-track engine that has been started on the last track, reached
through the public operations `new` then `play_track 2`. -/
def threePlaying2 : TrackList :=
  (TrackList.new [trackA, trackB, trackC]).play_track allOkEnv 2

def sampleDate : Date := ⟨2024, 5, 17⟩

/-- A daily session whose only task name collides with the loader's
`"  - Tasks worked on:"` exclusion check. -/
def poisonSession : PomodoroSession where
  date := sampleDate
  work_sessions := 1
  total_work_minutes := 25
  break_sessions := 0
  total_break_minutes := 0
  tasks_worked_on := ["Tasks worked on:"]

/-- Persisted content containing a well-formed block, a block with an
unparsable date header, and another well-formed block. -/
def malformedContent : String :=
  "## Pomodoro Sessions\n### 2024-05-17\n- Work sessions: 2\n### not-a-date\n- Work sessions: 7\n### 2024-05-18\n- Break sessions: 1\n"

def goodBlockA : PomodoroSession where
  date := ⟨2024, 5, 17⟩
  work_sessions := 2
  total_work_minutes := 0
  break_sessions := 0
  total_break_minutes := 0
  tasks_worked_on := []

def goodBlockB : PomodoroSession where
  date := ⟨2024, 5, 18⟩
  work_sessions := 0
  total_work_minutes := 0
  break_sessions := 1
  total_break_minutes := 0
  tasks_worked_on := []

/-- Well-formedness of a date for the `%Y-%m-%d` round trip: the ranges
`chrono::NaiveDate` guarantees by construction, with the year in the
four-digit range `%Y` prints without a sign. -/
def DateWF (d : Date) : Prop :=
  1 ≤ d.month ∧ d.month ≤ 12 ∧ 1 ≤ d.day ∧ d.day ≤ 31 ∧ d.year ≤ 9999

/-- Well-formedness of one persisted session: a valid date and task names
that survive the loader's line discipline (no embedded newline, and not
starting with the literal the loader's task-line exclusion tests for). -/
def SessionWF (s : PomodoroSession) : Prop :=
  DateWF s.date ∧
    ∀ name ∈ s.tasks_worked_on,
      ('\n' ∉ name.data) ∧ ("Tasks worked on:".data).isPrefixOf name.data = false

instance (d : Date) : Decidable (DateWF d) := by
  unfold DateWF
  infer_instance

instance (s : PomodoroSession) : Decidable (SessionWF s) := by
  unfold SessionWF
  infer_instance

/-! # Helper lemmas: session-engine bookkeeping -/

theorem find?_updateFirst {α : Type} (p : α → Bool) (f : α → α)
    (hf : ∀ a, p a = true → p (f a) = true) :
    ∀ l : List α, (l.find? p).isSome = true →
      (updateFirst p f l).find? p = (l.find? p).map f := by
  intro l
  induction l with
  | nil => intro h; simp at h
  | cons x xs ih =>
    intro h
    cases hx : p x with
    | true =>
      simp [updateFirst, hx, List.find?_cons_of_pos, hf x hx]
    | false =>
      have hx' : ¬ p x = true := by simp [hx]
      simp only [List.find?_cons_of_neg _ hx'] at h
      simp [updateFirst, hx, List.find?_cons_of_neg _ hx', ih h]

theorem todayAggregate_touchToday (today : Date) (f : PomodoroSession → PomodoroSession)
    (hf : ∀ s, (f s).date = s.date) (ss : List PomodoroSession) :
    todayAggregate today (touchToday today f ss) = f (todayAggregate today ss) := by
  have hp : ∀ s : PomodoroSession,
      (decide (s.date = today)) = true → (decide ((f s).date = today)) = true := by
    intro s h
    simp only [decide_eq_true_eq] at h ⊢
    rw [hf]
    exact h
  by_cases hany : ss.any (fun s => s.date = today) = true
  · have hsome : (ss.find? (fun s => decide (s.date = today))).isSome = true := by
      obtain ⟨s, hmem, hs⟩ := List.any_eq_true.mp hany
      exact List.find?_isSome.mpr ⟨s, hmem, hs⟩
    unfold touchToday todayAggregate
    simp only [hany, if_true]
    rw [find?_updateFirst _ f hp ss hsome]
    obtain ⟨s, hs⟩ := Option.isSome_iff_exists.mp hsome
    simp [hs]
  · have hnone : ss.find? (fun s => decide (s.date = today)) = none := by
      rw [List.find?_eq_none]
      intro s hmem
      by_contra hcon
      exact hany (List.any_eq_true.mpr ⟨s, hmem, by simpa using hcon⟩)
    have hpe : decide ((emptySession today).date = today) = true := decide_eq_true rfl
    have hfind : ((ss ++ [emptySession today]).find? (fun s => decide (s.date = today)))
        = some (emptySession today) := by
      rw [List.find?_append, hnone, Option.none_or]
      exact List.find?_cons_of_pos _ hpe
    unfold touchToday todayAggregate
    rw [if_neg hany]
    rw [find?_updateFirst _ f hp _ (by simp [hfind]), hfind, hnone]
    rfl

theorem complete_phase_work_eq (now : Nat) (today : Date) (t : Timer)
    (hph : t.phase = .Work) :
    t.complete_phase now today =
      { t with
        alarm_active := true,
        alarm_end_time := some (now + t.alarm_duration_seconds),
        daily_sessions :=
          touchToday today (workSessionUpd (t.work_duration / 60)) t.daily_sessions,
        work_completed_flag :=
          if t.selected_todo_index.isSome then true else t.work_completed_flag,
        pomodoro_count := t.pomodoro_count + 1,
        current_session_start := none,
        phase := if (t.pomodoro_count + 1) % t.long_break_interval = 0
          then PomodoroPhase.LongBreak else PomodoroPhase.ShortBreak,
        time_remaining := if (t.pomodoro_count + 1) % t.long_break_interval = 0
          then (t.long_break_duration : Int) else (t.short_break_duration : Int),
        state := .Stopped,
        last_tick := none } := by
  obtain ⟨st, ph, pc, rem, lt, sel, wfl, wd, sbd, lbd, lbi, ds, css, ads, aa, aet⟩ := t
  simp only at hph
  subst hph
  simp only [Timer.complete_phase, Timer.play_alarm]
  split <;> split <;> rfl

theorem complete_phase_short_eq (now : Nat) (today : Date) (t : Timer)
    (hph : t.phase = .ShortBreak) :
    t.complete_phase now today =
      { t with
        alarm_active := true,
        alarm_end_time := some (now + t.alarm_duration_seconds),
        daily_sessions :=
          touchToday today (breakSessionUpd (t.short_break_duration / 60)) t.daily_sessions,
        phase := PomodoroPhase.Work,
        time_remaining := (t.work_duration : Int),
        state := .Stopped,
        last_tick := none } := by
  obtain ⟨st, ph, pc, rem, lt, sel, wfl, wd, sbd, lbd, lbi, ds, css, ads, aa, aet⟩ := t
  simp only at hph
  subst hph
  rfl

theorem complete_phase_long_eq (now : Nat) (today : Date) (t : Timer)
    (hph : t.phase = .LongBreak) :
    t.complete_phase now today =
      { t with
        alarm_active := true,
        alarm_end_time := some (now + t.alarm_duration_seconds),
        daily_sessions :=
          touchToday today (breakSessionUpd (t.long_break_duration / 60)) t.daily_sessions,
        phase := PomodoroPhase.Work,
        time_remaining := (t.work_duration : Int),
        state := .Stopped,
        last_tick := none } := by
  obtain ⟨st, ph, pc, rem, lt, sel, wfl, wd, sbd, lbd, lbi, ds, css, ads, aa, aet⟩ := t
  simp only at hph
  subst hph
  rfl

theorem complete_phase_time_nonneg (t : Timer) (now : Nat) (today : Date) :
    0 ≤ (t.complete_phase now today).time_remaining := by
  cases hph : t.phase
  · rw [complete_phase_work_eq now today t hph]
    dsimp only
    split <;> exact Int.natCast_nonneg _
  · rw [complete_phase_short_eq now today t hph]
    exact Int.natCast_nonneg _
  · rw [complete_phase_long_eq now today t hph]
    exact Int.natCast_nonneg _

/-! # Claims C1, C2, C3, C8, C10: session engine -/

/-- C1: from a Work phase, `complete_phase` (the body of `skip_phase` and of
the completion branch of `update`) increments `pomodoro_count` by exactly
one, adds the configured work minutes and one work session to today's daily
session, picks LongBreak exactly when the incremented count is divisible by
the long-break interval (ShortBreak otherwise), and — from any phase —
resets the remaining time to the new phase's configured duration and stops
the timer. -/
theorem claim_C1_complete_phase_work (t : Timer) (now : Nat) (today : Date)
    (hph : t.phase = .Work) (hN : 0 < t.long_break_interval) :
    (t.complete_phase now today).pomodoro_count = t.pomodoro_count + 1
    ∧ (todayAggregate today (t.complete_phase now today).daily_sessions).total_work_minutes
        = (todayAggregate today t.daily_sessions).total_work_minutes + t.work_duration / 60
    ∧ (todayAggregate today (t.complete_phase now today).daily_sessions).work_sessions
        = (todayAggregate today t.daily_sessions).work_sessions + 1
    ∧ (t.complete_phase now today).phase
        = (if (t.pomodoro_count + 1) % t.long_break_interval = 0
            then PomodoroPhase.LongBreak else PomodoroPhase.ShortBreak)
    ∧ t.skip_phase now today = t.complete_phase now today
    ∧ (∀ u : Timer,
        (u.complete_phase now today).time_remaining
          = ((u.complete_phase now today).phaseDuration : Int)
        ∧ (u.complete_phase now today).state = .Stopped) := by
  have hc := complete_phase_work_eq now today t hph
  have hdate : ∀ s, (workSessionUpd (t.work_duration / 60) s).date = s.date := fun _ => rfl
  refine ⟨?_, ?_, ?_, ?_, rfl, ?_⟩
  · rw [hc]
  · rw [hc]
    dsimp only
    rw [todayAggregate_touchToday today _ hdate]
    rfl
  · rw [hc]
    dsimp only
    rw [todayAggregate_touchToday today _ hdate]
    rfl
  · rw [hc]
  · intro u
    cases hu : u.phase
    · rw [complete_phase_work_eq now today u hu]
      constructor
      · dsimp only [Timer.phaseDuration]
        split <;> rfl
      · rfl
    · rw [complete_phase_short_eq now today u hu]
      exact ⟨rfl, rfl⟩
    · rw [complete_phase_long_eq now today u hu]
      exact ⟨rfl, rfl⟩

theorem claim_C1_witness :
    ((Timer.new 25 5 15 4 10).complete_phase 0 sampleDate).pomodoro_count
      = (Timer.new 25 5 15 4 10).pomodoro_count + 1 :=
  (claim_C1_complete_phase_work (Timer.new 25 5 15 4 10) 0 sampleDate rfl (by decide)).1

/-- C2: `update` is a no-op unless Running; when Running with a recorded
last tick, an elapsed time strictly below the remaining time is subtracted
exactly (phase and run state untouched, last tick moved to `now`), and an
elapsed time at least the remaining time zeroes the clock and runs
`complete_phase`. -/
theorem claim_C2_advance (t : Timer) (now : Nat) (today : Date) :
    (t.state ≠ .Running → t.update now today = t)
    ∧ (∀ last : Nat, t.state = .Running → t.last_tick = some last →
        (((now - last : Nat) : Int) < t.time_remaining →
          t.update now today
            = { t with time_remaining := t.time_remaining - ((now - last : Nat) : Int),
                       last_tick := some now })
        ∧ (t.time_remaining ≤ ((now - last : Nat) : Int) →
          t.update now today
            = { Timer.complete_phase now today { t with time_remaining := 0 } with
                  last_tick := some now })) := by
  constructor
  · intro h
    simp [Timer.update, h]
  · intro last hrun htick
    constructor
    · intro hlt
      have hnge : ¬ (((now - last : Nat) : Int) ≥ t.time_remaining) := not_le.mpr hlt
      simp [Timer.update, hrun, htick, hnge]
    · intro hge
      have hge' : ((now - last : Nat) : Int) ≥ t.time_remaining := hge
      simp [Timer.update, hrun, htick, hge']

theorem claim_C2_witness :
    (Timer.new 25 5 15 4 10).update 3 sampleDate = Timer.new 25 5 15 4 10 :=
  (claim_C2_advance (Timer.new 25 5 15 4 10) 3 sampleDate).1 (by decide)

/-- C3: `update_alarm_state` returns true exactly while the alarm is active
and `now` is before its end instant; once `now` reaches the end it clears
the alarm fields and returns false; with no active alarm it returns false
and changes nothing.  The concrete 15-second scenario triggered by
`complete_phase` at t=0 reads true at t=10 and false (cleared) at t=16. -/
theorem claim_C3_update_alarm_state (t : Timer) (now : Nat) :
    ((t.update_alarm_state now).2 = true ↔
      (t.alarm_active = true ∧ ∃ e, t.alarm_end_time = some e ∧ now < e))
    ∧ (∀ e : Nat, t.alarm_active = true → t.alarm_end_time = some e → e ≤ now →
        t.update_alarm_state now
          = ({ t with alarm_active := false, alarm_end_time := none }, false))
    ∧ (t.alarm_active = false → t.update_alarm_state now = (t, false))
    ∧ ((((Timer.new 25 5 15 4 15).complete_phase 0 sampleDate).update_alarm_state 10).2 = true
        ∧ (((Timer.new 25 5 15 4 15).complete_phase 0 sampleDate).update_alarm_state 16).2 = false
        ∧ (((Timer.new 25 5 15 4 15).complete_phase 0 sampleDate).update_alarm_state 16).1.alarm_active
            = false) := by
  refine ⟨?_, ?_, ?_, by decide, by decide, by decide⟩
  · cases haa : t.alarm_active
    · simp [Timer.update_alarm_state, haa]
    · cases het : t.alarm_end_time with
      | none => simp [Timer.update_alarm_state, haa, het]
      | some e =>
        by_cases hge : now ≥ e
        · simp [Timer.update_alarm_state, haa, het, hge]
          try omega
        · simp [Timer.update_alarm_state, haa, het, hge]
          try omega
  · intro e haa het hle
    simp [Timer.update_alarm_state, haa, het, hle]
  · intro haa
    simp [Timer.update_alarm_state, haa]

theorem claim_C3_witness :
    (Timer.new 25 5 15 4 15).update_alarm_state 10 = (Timer.new 25 5 15 4 15, false) :=
  (claim_C3_update_alarm_state (Timer.new 25 5 15 4 15) 10).2.2.1 rfl

/-- C8: in every state reachable from a freshly configured engine through
the public operations, the remaining time is non-negative (the subtraction
in `update` only fires when the elapsed time is strictly below the remaining
time, and every assignment stores a configured duration or zero). -/
theorem claim_C8_remaining_nonneg (ops : List TimerOp) (w s l N a : Nat) :
    0 ≤ (applyOps ops (Timer.new w s l N a)).time_remaining := by
  have hstep : ∀ (t : Timer) (op : TimerOp),
      0 ≤ t.time_remaining → 0 ≤ (TimerOp.apply t op).time_remaining := by
    intro t op h
    cases op with
    | toggle now =>
      simp only [TimerOp.apply, Timer.toggle_start_pause, Timer.start]
      cases t.state <;> dsimp only <;> first
        | exact h
        | (split <;> exact h)
    | halt => exact h
    | reset => exact Int.natCast_nonneg _
    | skip now today => exact complete_phase_time_nonneg t now today
    | advance now today =>
      simp only [TimerOp.apply, Timer.update]
      by_cases hrun : t.state ≠ TimerState.Running
      · simp [hrun, h]
      · simp only [hrun, if_false]
        cases htick : t.last_tick with
        | none => exact h
        | some last =>
          dsimp only
          by_cases hge : ((now - last : Nat) : Int) ≥ t.time_remaining
          · simp only [hge, if_true, if_pos]
            exact complete_phase_time_nonneg _ now today
          · simp only [hge, if_neg, if_false]
            have : ((now - last : Nat) : Int) ≤ t.time_remaining := le_of_lt (not_le.mp hge)
            omega
    | setTodo index => exact h
    | setTodoName index name today =>
      simp only [TimerOp.apply, Timer.set_selected_todo_with_task_name]
      cases name <;> exact h
    | clearFlag => exact h
    | load sessions today =>
      simp only [TimerOp.apply, Timer.load_daily_sessions]
      cases (sessions.find? fun s => s.date = today) <;> exact h
    | pollAlarm now =>
      simp only [TimerOp.apply, Timer.update_alarm_state]
      cases t.alarm_active
      · simpa using h
      · cases t.alarm_end_time with
        | none => simpa using h
        | some e => by_cases h2 : now ≥ e <;> simpa [h2] using h
  have hall : ∀ (ops : List TimerOp) (t : Timer),
      0 ≤ t.time_remaining → 0 ≤ (applyOps ops t).time_remaining := by
    intro ops
    induction ops with
    | nil => intro t h; exact h
    | cons op rest ih =>
      intro t h
      exact ih _ (hstep t op h)
  exact hall ops _ (Int.natCast_nonneg _)

/-- C10: completing a Work phase credits today's daily session with the full
configured work duration in whole minutes regardless of the remaining time
(`skip_phase` with any remaining time credits the same amount), and the
amount routed to the selected todo item through `get_work_session_minutes`
and `add_time_to_task_by_index` is that same quotient. -/
theorem claim_C10_full_duration_credit (t : Timer) (now : Nat) (today : Date)
    (hph : t.phase = .Work) :
    ((todayAggregate today (t.complete_phase now today).daily_sessions).total_work_minutes
        = (todayAggregate today t.daily_sessions).total_work_minutes + t.work_duration / 60)
    ∧ t.get_work_session_minutes = t.work_duration / 60
    ∧ (∀ r : Int,
        (todayAggregate today
            (Timer.skip_phase now today { t with time_remaining := r }).daily_sessions).total_work_minutes
          = (todayAggregate today t.daily_sessions).total_work_minutes + t.work_duration / 60)
    ∧ (∀ (items : List TodoItem) (index : Nat) (it : TodoItem) (nowH nowM : Nat),
        items.get? index = some it →
        ((addTimeToTaskByIndex index t.get_work_session_minutes today nowH nowM items).get? index).map
            (fun j => j.focused_time)
          = some (it.focused_time + t.work_duration / 60)) := by
  have hdate : ∀ s, (workSessionUpd (t.work_duration / 60) s).date = s.date := fun _ => rfl
  refine ⟨?_, rfl, ?_, ?_⟩
  · rw [complete_phase_work_eq now today t hph]
    dsimp only
    rw [todayAggregate_touchToday today _ hdate]
    rfl
  · intro r
    rw [Timer.skip_phase, complete_phase_work_eq now today { t with time_remaining := r } hph]
    dsimp only
    rw [todayAggregate_touchToday today _ hdate]
    rfl
  · intro items index it nowH nowM hget
    have hlt : index < items.length := List.get?_eq_some.mp hget |>.1
    simp only [addTimeToTaskByIndex, hget]
    rw [List.get?_eq_getElem?, List.getElem?_set_self hlt]
    rfl

theorem claim_C10_witness :
    (Timer.new 25 5 15 4 10).get_work_session_minutes
      = (Timer.new 25 5 15 4 10).work_duration / 60 :=
  (claim_C10_full_duration_credit (Timer.new 25 5 15 4 10) 0 sampleDate rfl).2.1

/-! # Claims C4, C5, C6, C9: coordinator and playback engine -/

/-- C4: over every tick sequence, the coordinator issues exactly one
`lower_volume_for_alarm` per rising edge of the observed alarm value and
exactly one `restore_volume` per falling edge; a tick observing the same
value as the previous tick issues nothing. -/
theorem claim_C4_edge_triggered (wasActive : Bool) (obs : List Bool) :
    (coordRun wasActive obs).count VolumeAction.duck = risingEdges wasActive obs
    ∧ (coordRun wasActive obs).count VolumeAction.restore = fallingEdges wasActive obs
    ∧ (∀ b : Bool, coordTick b b = (b, [])) := by
  refine ⟨?_, ?_, ?_⟩
  · induction obs generalizing wasActive with
    | nil => rfl
    | cons b bs ih =>
      cases wasActive <;> cases b <;>
        simp [coordRun, coordTick, risingEdges, List.count_append, List.count_cons, ih,
          Nat.add_comm]
  · induction obs generalizing wasActive with
    | nil => rfl
    | cons b bs ih =>
      cases wasActive <;> cases b <;>
        simp [coordRun, coordTick, fallingEdges, List.count_append, List.count_cons, ih,
          Nat.add_comm]
  · intro b
    cases b <;> rfl

/-- C5 counterexample: starting the single present track and then calling
`stop` — both public operations — leaves the engine Stopped while
`current_track` is still `some 0`, refuting "playing-index is Some only
while the run state is Playing or Paused". -/
theorem claim_C5_counterexample :
    (((TrackList.new [trackA]).play_track allOkEnv 0).stop).runState = PlayState.Stopped
    ∧ (((TrackList.new [trackA]).play_track allOkEnv 0).stop).current_track = some 0 := by
  decide

/-- C5 (amended): `stop` halts playback (run state Stopped) but leaves the
playing-index — and the rest of the navigation state — unchanged, so the
index may remain Some while Stopped (that is what lets `toggle_play_pause`
resume the last track from Stopped). -/
theorem claim_C5_stop_preserves_index (tl : TrackList) :
    (tl.stop).runState = PlayState.Stopped
    ∧ (tl.stop).current_track = tl.current_track
    ∧ (tl.stop).tracks = tl.tracks
    ∧ (tl.stop).selected_index = tl.selected_index
    ∧ (tl.stop).playback_mode = tl.playback_mode := by
  refine ⟨?_, rfl, rfl, rfl, rfl⟩
  simp [TrackList.stop, TrackList.runState]

theorem play_track_success (env : AudioEnv) (tl : TrackList) (index : Nat) (tr : Track)
    (hlt : index < tl.tracks.length) (hget : tl.tracks.get? index = some tr)
    (hex : env.fsExists tr.path = true) (hsink : tl.hasSink = true ∨ env.sinkOk = true) :
    (tl.play_track env index).current_track = some index
    ∧ (tl.play_track env index).is_playing = true
    ∧ (tl.play_track env index).is_paused = false := by
  have hnge : ¬ (index ≥ tl.tracks.length) := by omega
  have hget' : tl.tracks[index]? = some tr := by
    rw [← List.get?_eq_getElem?]
    exact hget
  cases hs : tl.hasSink with
  | true => simp [TrackList.play_track, hnge, hget', hex, TrackList.stop, hs]
  | false =>
    cases hok : env.sinkOk with
    | true => simp [TrackList.play_track, hnge, hget', hex, TrackList.stop, hs, hok]
    | false =>
      rcases hsink with h | h
      · rw [hs] at h; cases h
      · rw [hok] at h; cases h

/-- C6 counterexample: in Sequential mode with a three-track library, the
last track finishing stops the engine but the playing-index stays `some 2`
instead of becoming unset. -/
theorem claim_C6_counterexample :
    (threePlaying2.update_playback_state allOkEnv true).runState = PlayState.Stopped
    ∧ (threePlaying2.update_playback_state allOkEnv true).current_track = some 2 := by
  decide

/-- C6 (amended): on a natural track end with playing-index `i`, Sequential
mode plays `i+1` when it exists and stops at the last index — leaving the
playing-index at `i`, not unset — while LoopAll plays `(i+1) mod len`,
wrapping from the last index to 0. -/
theorem claim_C6_auto_advance (env : AudioEnv) (tl : TrackList) (i : Nat)
    (hcur : tl.current_track = some i) :
    (tl.playback_mode = .TrackList →
      ((∀ tr : Track, i + 1 < tl.tracks.length → tl.tracks.get? (i + 1) = some tr →
          env.fsExists tr.path = true → (tl.hasSink = true ∨ env.sinkOk = true) →
          (tl.handle_track_finished env).current_track = some (i + 1)
          ∧ (tl.handle_track_finished env).runState = PlayState.Playing)
       ∧ (i + 1 = tl.tracks.length →
          tl.handle_track_finished env = tl.stop
          ∧ (tl.handle_track_finished env).current_track = some i)))
    ∧ (tl.playback_mode = .Repeat → tl.tracks ≠ [] →
        tl.handle_track_finished env = tl.play_track env ((i + 1) % tl.tracks.length)) := by
  constructor
  · intro hmode
    constructor
    · intro tr hlt hget hex hsink
      have hne : tl.tracks.isEmpty = false := by
        cases htr : tl.tracks with
        | nil => rw [htr] at hlt; simp at hlt
        | cons x xs => rfl
      have hh : tl.handle_track_finished env = tl.play_track env (i + 1) := by
        simp [TrackList.handle_track_finished, hne, hmode, hcur, hlt]
      rw [hh]
      have hps := play_track_success env tl (i + 1) tr hlt hget hex hsink
      refine ⟨hps.1, ?_⟩
      simp [TrackList.runState, hps.2.1, hps.2.2]
    · intro hEq
      have hne : tl.tracks.isEmpty = false := by
        cases htr : tl.tracks with
        | nil => rw [htr] at hEq; simp at hEq
        | cons x xs => rfl
      have hnlt : ¬ (i + 1 < tl.tracks.length) := by omega
      have hh : tl.handle_track_finished env = tl.stop := by
        simp [TrackList.handle_track_finished, hne, hmode, hcur, hnlt]
      exact ⟨hh, by rw [hh]; exact hcur⟩
  · intro hmode hne
    have hne' : tl.tracks.isEmpty = false := by
      cases htr : tl.tracks with
      | nil => exact absurd htr hne
      | cons x xs => rfl
    simp [TrackList.handle_track_finished, hne', hmode, hcur]

theorem claim_C6_witness :
    ((((TrackList.new [trackA, trackB, trackC]).play_track allOkEnv 0).handle_track_finished
        allOkEnv).current_track = some (0 + 1))
    ∧ ((((TrackList.new [trackA, trackB, trackC]).play_track allOkEnv 0).handle_track_finished
        allOkEnv).runState = PlayState.Playing) :=
  ((claim_C6_auto_advance allOkEnv
      ((TrackList.new [trackA, trackB, trackC]).play_track allOkEnv 0) 0 (by decide)).1
    (by decide)).1 trackB (by decide) (by decide) (by decide) (Or.inl (by decide))

/-- C9: `play_track` with an out-of-range index, or an index whose file no
longer exists, returns without touching any engine state. -/
theorem claim_C9_play_track_noop (env : AudioEnv) (tl : TrackList) (index : Nat) :
    (tl.tracks.length ≤ index → tl.play_track env index = tl)
    ∧ (∀ tr : Track, tl.tracks.get? index = some tr → env.fsExists tr.path = false →
        tl.play_track env index = tl) := by
  constructor
  · intro h
    simp [TrackList.play_track, h]
  · intro tr hget hex
    have hlt : index < tl.tracks.length := (List.get?_eq_some.mp hget).1
    have hnge : ¬ (index ≥ tl.tracks.length) := by omega
    have hget' : tl.tracks[index]? = some tr := by
      rw [← List.get?_eq_getElem?]
      exact hget
    simp [TrackList.play_track, hnge, hget', hex]

theorem claim_C9_witness :
    (TrackList.new [trackA]).play_track allOkEnv 5 = TrackList.new [trackA] :=
  (claim_C9_play_track_noop allOkEnv (TrackList.new [trackA]) 5).1 (by decide)

/-! # Helper lemmas: decimal rendering, dates, line splitting (for C7) -/

theorem digitChar_spec (d : Nat) (h : d < 10) :
    (digitChar d).isDigit = true ∧ (digitChar d).toNat = 48 + d
    ∧ (digitChar d).isWhitespace = false ∧ digitChar d ≠ '\n' ∧ digitChar d ≠ '-' := by
  interval_cases d <;> exact ⟨by decide, by decide, by decide, by decide, by decide⟩

theorem renderNatAux_digits (f : Nat) : ∀ (n : Nat) (c : Char),
    c ∈ renderNatAux f n → ∃ d, d < 10 ∧ c = digitChar d := by
  induction f with
  | zero => intro n c hc; simp [renderNatAux] at hc
  | succ f ih =>
    intro n c hc
    by_cases h10 : n < 10
    · simp [renderNatAux, h10] at hc
      exact ⟨n, h10, hc⟩
    · simp [renderNatAux, h10] at hc
      rcases hc with hc | hc
      · exact ih _ c hc
      · exact ⟨n % 10, Nat.mod_lt _ (by omega), hc⟩

theorem renderNat_digits (n : Nat) (c : Char) (hc : c ∈ renderNat n) :
    ∃ d, d < 10 ∧ c = digitChar d :=
  renderNatAux_digits (n + 1) n c hc

theorem renderNatAux_spec (f : Nat) : ∀ n : Nat, n < 10 ^ f → 1 ≤ f →
    renderNatAux f n ≠ []
    ∧ ∀ a : Nat, (renderNatAux f n).foldl digitStep a
        = a * 10 ^ (renderNatAux f n).length + n := by
  induction f with
  | zero => intro n h h1; omega
  | succ f ih =>
    intro n hn _
    by_cases h10 : n < 10
    · constructor
      · simp [renderNatAux, h10]
      · intro a
        have htn : (digitChar n).toNat = 48 + n := (digitChar_spec n h10).2.1
        simp [renderNatAux, h10, digitStep, htn]
        try omega
    · have hf1 : 1 ≤ f := by
        rcases Nat.eq_zero_or_pos f with hf | hf
        · subst hf
          simp [pow_one] at hn
          omega
        · exact hf
      have hdiv : n / 10 < 10 ^ f := by
        have hlt : n < 10 ^ f * 10 := by
          rw [← pow_succ]
          exact hn
        omega
      obtain ⟨hne, hval⟩ := ih (n / 10) hdiv hf1
      have heq : renderNatAux (f + 1) n
          = renderNatAux f (n / 10) ++ [digitChar (n % 10)] := by
        simp [renderNatAux, h10]
      constructor
      · rw [heq]
        simp
      · intro a
        rw [heq, List.foldl_append, hval a, List.length_append]
        have htn : (digitChar (n % 10)).toNat = 48 + n % 10 :=
          (digitChar_spec (n % 10) (by omega)).2.1
        simp only [List.foldl, digitStep, htn, List.length_cons, List.length_nil]
        rw [pow_succ, ← Nat.mul_assoc]
        omega

theorem renderNat_spec (n : Nat) :
    renderNat n ≠ []
    ∧ ∀ a : Nat, (renderNat n).foldl digitStep a
        = a * 10 ^ (renderNat n).length + n := by
  have hlt : n < 10 ^ (n + 1) :=
    lt_of_lt_of_le (Nat.lt_pow_self (by norm_num) n)
      (Nat.pow_le_pow_right (by norm_num) (by omega))
  exact renderNatAux_spec (n + 1) n hlt (by omega)

theorem padLeft_render_chars (k n : Nat) :
    ∀ c ∈ padLeft k (renderNat n),
      c.isDigit = true ∧ c.isWhitespace = false ∧ c ≠ '\n' ∧ c ≠ '-' := by
  intro c hc
  rcases List.mem_append.mp hc with hc | hc
  · have hc0 : c = '0' := List.eq_of_mem_replicate hc
    subst hc0
    exact ⟨by decide, by decide, by decide, by decide⟩
  · obtain ⟨d, hd, rfl⟩ := renderNat_digits n c hc
    have h := digitChar_spec d hd
    exact ⟨h.1, h.2.2.1, h.2.2.2.1, h.2.2.2.2⟩

theorem renderNat_chars (n : Nat) :
    ∀ c ∈ renderNat n,
      c.isDigit = true ∧ c.isWhitespace = false ∧ c ≠ '\n' ∧ c ≠ '-' := by
  intro c hc
  obtain ⟨d, hd, rfl⟩ := renderNat_digits n c hc
  have h := digitChar_spec d hd
  exact ⟨h.1, h.2.2.1, h.2.2.2.1, h.2.2.2.2⟩

theorem parseNatChars_padLeft_renderNat (k n : Nat) :
    parseNatChars (padLeft k (renderNat n)) = some n := by
  obtain ⟨hne, hval⟩ := renderNat_spec n
  unfold parseNatChars
  rw [if_pos]
  · congr 1
    unfold padLeft
    rw [List.foldl_append]
    have hz : ∀ j : Nat, (List.replicate j '0').foldl digitStep 0 = 0 := by
      intro j
      induction j with
      | zero => rfl
      | succ j ih =>
        rw [List.replicate_succ]
        simpa [digitStep] using ih
    rw [hz, hval 0]
    simp
  · constructor
    · unfold padLeft
      simp [hne]
    · rw [List.all_eq_true]
      intro c hc
      exact (padLeft_render_chars k n c hc).1

theorem parseNatChars_renderNat (n : Nat) : parseNatChars (renderNat n) = some n := by
  have h := parseNatChars_padLeft_renderNat 0 n
  simpa [padLeft] using h

theorem splitOnChar_not_mem (sep : Char) (l : List Char) (h : sep ∉ l) :
    splitOnChar sep l = [l] := by
  induction l with
  | nil => rfl
  | cons c cs ih =>
    have hc : ¬ c = sep := fun he => h (he ▸ List.mem_cons_self c cs)
    have hcs : sep ∉ cs := fun hm => h (List.mem_cons_of_mem _ hm)
    simp [splitOnChar, hc, ih hcs]

theorem splitOnChar_append (sep : Char) (l rest : List Char) (h : sep ∉ l) :
    splitOnChar sep (l ++ sep :: rest) = l :: splitOnChar sep rest := by
  induction l with
  | nil => simp [splitOnChar]
  | cons c cs ih =>
    have hc : ¬ c = sep := fun he => h (he ▸ List.mem_cons_self c cs)
    have hcs := ih (fun hm => h (List.mem_cons_of_mem _ hm))
    simp [splitOnChar, hc, hcs]

theorem splitOnChar_joinLines (ls : List (List Char)) (h : ∀ l ∈ ls, '\n' ∉ l) :
    splitOnChar '\n' (joinLines ls) = ls ++ [[]] := by
  induction ls with
  | nil => rfl
  | cons l ls ih =>
    have hl : joinLines (l :: ls) = l ++ '\n' :: joinLines ls := rfl
    rw [hl, splitOnChar_append _ _ _ (h l (List.mem_cons_self l ls)),
      ih (fun x hx => h x (List.mem_cons_of_mem _ hx))]
    rfl

theorem rustLines_joinLines (ls : List (List Char)) (h : ∀ l ∈ ls, '\n' ∉ l) :
    rustLines (joinLines ls) = ls := by
  unfold rustLines
  rw [splitOnChar_joinLines ls h]
  rw [if_pos (by simp), List.dropLast_concat]

theorem formatDate_chars (d : Date) :
    ∀ c ∈ formatDate d, c = '-' ∨ (c.isDigit = true ∧ c.isWhitespace = false ∧ c ≠ '\n') := by
  intro c hc
  unfold formatDate at hc
  rcases List.mem_append.mp hc with hc | hc
  · have h := padLeft_render_chars 4 d.year c hc
    exact Or.inr ⟨h.1, h.2.1, h.2.2.1⟩
  · rcases List.mem_cons.mp hc with hc | hc
    · exact Or.inl hc
    · rcases List.mem_append.mp hc with hc | hc
      · have h := padLeft_render_chars 2 d.month c hc
        exact Or.inr ⟨h.1, h.2.1, h.2.2.1⟩
      · rcases List.mem_cons.mp hc with hc | hc
        · exact Or.inl hc
        · have h := padLeft_render_chars 2 d.day c hc
          exact Or.inr ⟨h.1, h.2.1, h.2.2.1⟩

theorem formatDate_no_nl (d : Date) : '\n' ∉ formatDate d := by
  intro hm
  rcases formatDate_chars d '\n' hm with h | h
  · cases h
  · exact h.2.2 rfl

theorem parseDate_formatDate (d : Date) (h : DateWF d) :
    parseDate (formatDate d) = some d := by
  have h4 : '-' ∉ padLeft 4 (renderNat d.year) :=
    fun hm => (padLeft_render_chars 4 d.year '-' hm).2.2.2 rfl
  have h2m : '-' ∉ padLeft 2 (renderNat d.month) :=
    fun hm => (padLeft_render_chars 2 d.month '-' hm).2.2.2 rfl
  have h2d : '-' ∉ padLeft 2 (renderNat d.day) :=
    fun hm => (padLeft_render_chars 2 d.day '-' hm).2.2.2 rfl
  unfold parseDate formatDate
  rw [splitOnChar_append '-' _ _ h4, splitOnChar_append '-' _ _ h2m,
    splitOnChar_not_mem '-' _ h2d]
  dsimp only
  rw [parseNatChars_padLeft_renderNat, parseNatChars_padLeft_renderNat,
    parseNatChars_padLeft_renderNat]
  dsimp only
  rw [if_pos ⟨h.1, h.2.1, h.2.2.1, h.2.2.2.1⟩]

theorem takeWhile_append_all (p : Char → Bool) (l rest : List Char)
    (h : ∀ c ∈ l, p c = true) :
    (l ++ rest).takeWhile p = l ++ rest.takeWhile p := by
  induction l with
  | nil => rfl
  | cons c cs ih =>
    simp [List.takeWhile_cons, h c (List.mem_cons_self c cs),
      ih (fun x hx => h x (List.mem_cons_of_mem _ hx))]

theorem splitWsNext_render_space (n : Nat) (rest : List Char) :
    splitWsNext (renderNat n ++ ' ' :: rest) = some (renderNat n) := by
  obtain ⟨hne, _⟩ := renderNat_spec n
  obtain ⟨c, cs, hcons⟩ : ∃ c cs, renderNat n = c :: cs := by
    cases hr : renderNat n with
    | nil => exact absurd hr hne
    | cons c cs => exact ⟨c, cs, rfl⟩
  have hnws : ∀ x ∈ renderNat n, x.isWhitespace = false :=
    fun x hx => (renderNat_chars n x hx).2.1
  have hc : c.isWhitespace = false := hnws c (hcons ▸ List.mem_cons_self c cs)
  unfold splitWsNext
  rw [hcons, List.cons_append, List.dropWhile_cons, hc]
  simp only [Bool.false_eq_true, if_false]
  rw [← List.cons_append, ← hcons]
  rw [takeWhile_append_all _ _ _ (by intro x hx; simp [hnws x hx])]
  simp [List.takeWhile_cons]

/-! # Helper lemmas: classifying the serializer's lines (for C7) -/

theorem classify_header_line (d : Date) (hwf : DateWF d) :
    classifySessionLine ("### ".data ++ formatDate d) = .header (some d) := by
  have hpre : ("### ".data).isPrefixOf ("### ".data ++ formatDate d) = true := by
    simp [List.isPrefixOf_cons₂]
  have hdrop : ("### ".data ++ formatDate d).drop 4 = formatDate d := by
    have h := List.drop_left "### ".data (formatDate d)
    simpa using h
  unfold classifySessionLine
  rw [if_pos hpre, hdrop, parseDate_formatDate d hwf]

theorem classify_work_sessions_line (n : Nat) :
    classifySessionLine ("- Work sessions: ".data ++ renderNat n)
      = .workSessions (some n) := by
  have h1 : ("### ".data).isPrefixOf ("- Work sessions: ".data ++ renderNat n) = false := by
    simp [List.isPrefixOf_cons₂]
  have h2 : ("- Work sessions: ".data).isPrefixOf
      ("- Work sessions: ".data ++ renderNat n) = true := by
    simp [List.isPrefixOf_cons₂]
  have hdrop : ("- Work sessions: ".data ++ renderNat n).drop 17 = renderNat n := by
    have h := List.drop_left "- Work sessions: ".data (renderNat n)
    simpa using h
  unfold classifySessionLine
  rw [if_neg (by simp [h1]), if_pos h2, hdrop, parseNatChars_renderNat]

theorem classify_work_time_line (n : Nat) :
    classifySessionLine ("- Total work time: ".data ++ renderNat n ++ " minutes".data)
      = .workTime (some n) := by
  rw [List.append_assoc]
  have h1 : ("### ".data).isPrefixOf
      ("- Total work time: ".data ++ (renderNat n ++ " minutes".data)) = false := by
    simp [List.isPrefixOf_cons₂]
  have h2 : ("- Work sessions: ".data).isPrefixOf
      ("- Total work time: ".data ++ (renderNat n ++ " minutes".data)) = false := by
    simp [List.isPrefixOf_cons₂]
  have h3 : ("- Total work time: ".data).isPrefixOf
      ("- Total work time: ".data ++ (renderNat n ++ " minutes".data)) = true := by
    simp [List.isPrefixOf_cons₂]
  have hdrop : ("- Total work time: ".data ++ (renderNat n ++ " minutes".data)).drop 19
      = renderNat n ++ " minutes".data := by
    have h := List.drop_left "- Total work time: ".data (renderNat n ++ " minutes".data)
    simpa using h
  have hws : splitWsNext (renderNat n ++ " minutes".data) = some (renderNat n) :=
    splitWsNext_render_space n "minutes".data
  unfold classifySessionLine
  rw [if_neg (by simp [h1]), if_neg (by simp [h2]), if_pos h3, hdrop, hws]
  rw [Option.some_bind, parseNatChars_renderNat]

theorem classify_break_sessions_line (n : Nat) :
    classifySessionLine ("- Break sessions: ".data ++ renderNat n)
      = .breakSessions (some n) := by
  have h1 : ("### ".data).isPrefixOf ("- Break sessions: ".data ++ renderNat n) = false := by
    simp [List.isPrefixOf_cons₂]
  have h2 : ("- Work sessions: ".data).isPrefixOf
      ("- Break sessions: ".data ++ renderNat n) = false := by
    simp [List.isPrefixOf_cons₂]
  have h3 : ("- Total work time: ".data).isPrefixOf
      ("- Break sessions: ".data ++ renderNat n) = false := by
    simp [List.isPrefixOf_cons₂]
  have h4 : ("- Break sessions: ".data).isPrefixOf
      ("- Break sessions: ".data ++ renderNat n) = true := by
    simp [List.isPrefixOf_cons₂]
  have hdrop : ("- Break sessions: ".data ++ renderNat n).drop 18 = renderNat n := by
    have h := List.drop_left "- Break sessions: ".data (renderNat n)
    simpa using h
  unfold classifySessionLine
  rw [if_neg (by simp [h1]), if_neg (by simp [h2]), if_neg (by simp [h3]), if_pos h4,
    hdrop, parseNatChars_renderNat]

theorem classify_break_time_line (n : Nat) :
    classifySessionLine ("- Total break time: ".data ++ renderNat n ++ " minutes".data)
      = .breakTime (some n) := by
  rw [List.append_assoc]
  have h1 : ("### ".data).isPrefixOf
      ("- Total break time: ".data ++ (renderNat n ++ " minutes".data)) = false := by
    simp [List.isPrefixOf_cons₂]
  have h2 : ("- Work sessions: ".data).isPrefixOf
      ("- Total break time: ".data ++ (renderNat n ++ " minutes".data)) = false := by
    simp [List.isPrefixOf_cons₂]
  have h3 : ("- Total work time: ".data).isPrefixOf
      ("- Total break time: ".data ++ (renderNat n ++ " minutes".data)) = false := by
    simp [List.isPrefixOf_cons₂]
  have h4 : ("- Break sessions: ".data).isPrefixOf
      ("- Total break time: ".data ++ (renderNat n ++ " minutes".data)) = false := by
    simp [List.isPrefixOf_cons₂]
  have h5 : ("- Total break time: ".data).isPrefixOf
      ("- Total break time: ".data ++ (renderNat n ++ " minutes".data)) = true := by
    simp [List.isPrefixOf_cons₂]
  have hdrop : ("- Total break time: ".data ++ (renderNat n ++ " minutes".data)).drop 20
      = renderNat n ++ " minutes".data := by
    have h := List.drop_left "- Total break time: ".data (renderNat n ++ " minutes".data)
    simpa using h
  have hws : splitWsNext (renderNat n ++ " minutes".data) = some (renderNat n) :=
    splitWsNext_render_space n "minutes".data
  unfold classifySessionLine
  rw [if_neg (by simp [h1]), if_neg (by simp [h2]), if_neg (by simp [h3]),
    if_neg (by simp [h4]), if_pos h5, hdrop, hws]
  rw [Option.some_bind, parseNatChars_renderNat]

theorem classify_tasks_header_line :
    classifySessionLine ("- Tasks worked on:".data) = .other := by
  decide

theorem isPrefixOf_append_both (p q r : List Char) :
    (p ++ q).isPrefixOf (p ++ r) = q.isPrefixOf r := by
  induction p with
  | nil => rfl
  | cons c cs ih => simp [List.isPrefixOf_cons₂, ih]

theorem classify_task_name_line (name : String)
    (hx : ("Tasks worked on:".data).isPrefixOf name.data = false) :
    classifySessionLine ("  - ".data ++ name.data) = .taskName name := by
  have h1 : ("### ".data).isPrefixOf ("  - ".data ++ name.data) = false := by
    simp [List.isPrefixOf_cons₂]
  have h2 : ("- Work sessions: ".data).isPrefixOf ("  - ".data ++ name.data) = false := by
    simp [List.isPrefixOf_cons₂]
  have h3 : ("- Total work time: ".data).isPrefixOf ("  - ".data ++ name.data) = false := by
    simp [List.isPrefixOf_cons₂]
  have h4 : ("- Break sessions: ".data).isPrefixOf ("  - ".data ++ name.data) = false := by
    simp [List.isPrefixOf_cons₂]
  have h5 : ("- Total break time: ".data).isPrefixOf ("  - ".data ++ name.data) = false := by
    simp [List.isPrefixOf_cons₂]
  have h6 : ("  - ".data).isPrefixOf ("  - ".data ++ name.data) = true := by
    simp [List.isPrefixOf_cons₂]
  have h7 : ("  - Tasks worked on:".data).isPrefixOf ("  - ".data ++ name.data) = false := by
    have hsplit : ("  - Tasks worked on:".data)
        = "  - ".data ++ "Tasks worked on:".data := by decide
    rw [hsplit, isPrefixOf_append_both]
    exact hx
  have hdrop : ("  - ".data ++ name.data).drop 4 = name.data := by
    have h := List.drop_left "  - ".data name.data
    simpa using h
  unfold classifySessionLine
  rw [if_neg (by simp [h1]), if_neg (by simp [h2]), if_neg (by simp [h3]),
    if_neg (by simp [h4]), if_neg (by simp [h5]),
    if_pos ⟨h6, by rw [h7]; exact Bool.false_ne_true⟩, hdrop]

theorem classify_blank_line : classifySessionLine [] = .other := by
  decide

/-! # Helper lemmas: folding the loader over serialized blocks (for C7) -/

theorem flushCur_in_pomodoro (st : LoadState) :
    (flushCur st).in_pomodoro = st.in_pomodoro := by
  unfold flushCur
  cases st.current <;> rfl

theorem flushCur_items (st : LoadState) : (flushCur st).items = st.items := by
  unfold flushCur
  cases st.current <;> rfl

theorem applySessionLine_other (st : LoadState) : applySessionLine st .other = st := by
  unfold applySessionLine
  cases st.current <;> rfl

theorem loadStep_session (st : LoadState) (line : List Char)
    (hpom : st.in_pomodoro = true) (hne : ¬ line = "## Pomodoro Sessions".data) :
    loadStep st line = applySessionLine st (classifySessionLine line) := by
  unfold loadStep
  rw [if_neg hne, hpom]
  simp

theorem foldl_task_lines (names : List String) :
    ∀ (st : LoadState) (s : PomodoroSession), st.in_pomodoro = true →
    st.current = some s →
    (∀ nm ∈ names, ("Tasks worked on:".data).isPrefixOf nm.data = false) →
    (names.map (fun t => "  - ".data ++ t.data)).foldl loadStep st
      = { st with current := some { s with tasks_worked_on := s.tasks_worked_on ++ names } } := by
  induction names with
  | nil =>
    intro st s hpom hcur _
    obtain ⟨items, sess, inp, cur⟩ := st
    simp only at hcur
    subst hcur
    simp
  | cons nm rest ih =>
    intro st s hpom hcur hn
    have hne : ¬ ("  - ".data ++ nm.data) = "## Pomodoro Sessions".data := by
      simp
    rw [List.map_cons, List.foldl_cons,
      loadStep_session st _ hpom hne,
      classify_task_name_line nm (hn nm (List.mem_cons_self nm rest))]
    have happ : applySessionLine st (.taskName nm)
        = { st with current := some { s with tasks_worked_on := s.tasks_worked_on ++ [nm] } } := by
      unfold applySessionLine
      rw [hcur]
    rw [happ]
    rw [ih { st with current := some { s with tasks_worked_on := s.tasks_worked_on ++ [nm] } }
      { s with tasks_worked_on := s.tasks_worked_on ++ [nm] } hpom rfl
      (fun x hx => hn x (List.mem_cons_of_mem _ hx))]
    simp

theorem foldl_session_lines (s : PomodoroSession) (hwf : SessionWF s) (st : LoadState)
    (hpom : st.in_pomodoro = true) :
    (sessionLines s).foldl loadStep st
      = { items := (flushCur st).items, sessions := (flushCur st).sessions,
          in_pomodoro := true, current := some s } := by
  obtain ⟨hdate, htasks⟩ := hwf
  have hs1 : loadStep st ("### ".data ++ formatDate s.date)
      = { items := (flushCur st).items, sessions := (flushCur st).sessions,
          in_pomodoro := true,
          current := some (emptySession s.date) } := by
    rw [loadStep_session st _ hpom (by simp), classify_header_line s.date hdate]
    unfold applySessionLine
    dsimp only
    rw [flushCur_in_pomodoro, hpom]
  unfold sessionLines
  rw [List.foldl_cons, hs1]
  rw [List.foldl_cons,
    loadStep_session _ _ rfl (by simp),
    classify_work_sessions_line s.work_sessions]
  have h2 : applySessionLine
        { items := (flushCur st).items, sessions := (flushCur st).sessions,
          in_pomodoro := true, current := some (emptySession s.date) }
        (.workSessions (some s.work_sessions))
      = { items := (flushCur st).items, sessions := (flushCur st).sessions,
          in_pomodoro := true,
          current := some
            { date := s.date, work_sessions := s.work_sessions, total_work_minutes := 0,
              break_sessions := 0, total_break_minutes := 0, tasks_worked_on := [] } } := rfl
  rw [h2]
  rw [List.foldl_cons,
    loadStep_session _ _ rfl (by simp),
    classify_work_time_line s.total_work_minutes]
  have h3 : applySessionLine
        { items := (flushCur st).items, sessions := (flushCur st).sessions,
          in_pomodoro := true,
          current := some
            { date := s.date, work_sessions := s.work_sessions, total_work_minutes := 0,
              break_sessions := 0, total_break_minutes := 0, tasks_worked_on := [] } }
        (.workTime (some s.total_work_minutes))
      = { items := (flushCur st).items, sessions := (flushCur st).sessions,
          in_pomodoro := true,
          current := some
            { date := s.date, work_sessions := s.work_sessions,
              total_work_minutes := s.total_work_minutes,
              break_sessions := 0, total_break_minutes := 0, tasks_worked_on := [] } } := rfl
  rw [h3]
  rw [List.foldl_cons,
    loadStep_session _ _ rfl (by simp),
    classify_break_sessions_line s.break_sessions]
  have h4 : applySessionLine
        { items := (flushCur st).items, sessions := (flushCur st).sessions,
          in_pomodoro := true,
          current := some
            { date := s.date, work_sessions := s.work_sessions,
              total_work_minutes := s.total_work_minutes,
              break_sessions := 0, total_break_minutes := 0, tasks_worked_on := [] } }
        (.breakSessions (some s.break_sessions))
      = { items := (flushCur st).items, sessions := (flushCur st).sessions,
          in_pomodoro := true,
          current := some
            { date := s.date, work_sessions := s.work_sessions,
              total_work_minutes := s.total_work_minutes,
              break_sessions := s.break_sessions, total_break_minutes := 0,
              tasks_worked_on := [] } } := rfl
  rw [h4]
  rw [List.foldl_cons,
    loadStep_session _ _ rfl (by simp),
    classify_break_time_line s.total_break_minutes]
  have h5 : applySessionLine
        { items := (flushCur st).items, sessions := (flushCur st).sessions,
          in_pomodoro := true,
          current := some
            { date := s.date, work_sessions := s.work_sessions,
              total_work_minutes := s.total_work_minutes,
              break_sessions := s.break_sessions, total_break_minutes := 0,
              tasks_worked_on := [] } }
        (.breakTime (some s.total_break_minutes))
      = { items := (flushCur st).items, sessions := (flushCur st).sessions,
          in_pomodoro := true,
          current := some
            { date := s.date, work_sessions := s.work_sessions,
              total_work_minutes := s.total_work_minutes,
              break_sessions := s.break_sessions,
              total_break_minutes := s.total_break_minutes,
              tasks_worked_on := [] } } := rfl
  rw [h5]
  by_cases hempty : s.tasks_worked_on.isEmpty = true
  · have hnil : s.tasks_worked_on = [] := by
      cases hts : s.tasks_worked_on with
      | nil => rfl
      | cons x xs => rw [hts] at hempty; simp at hempty
    rw [if_pos hempty]
    rw [List.nil_append, List.foldl_cons,
      loadStep_session _ _ rfl (by simp), classify_blank_line,
      applySessionLine_other, List.foldl_nil]
    obtain ⟨d, a, b, c, e, ts⟩ := s
    simp only at hnil
    subst hnil
    rfl
  · rw [if_neg hempty]
    rw [List.cons_append, List.foldl_cons,
      loadStep_session _ _ rfl (by simp), classify_tasks_header_line,
      applySessionLine_other]
    rw [List.foldl_append]
    rw [foldl_task_lines s.tasks_worked_on
      { items := (flushCur st).items, sessions := (flushCur st).sessions,
        in_pomodoro := true,
        current := some
          { date := s.date, work_sessions := s.work_sessions,
            total_work_minutes := s.total_work_minutes,
            break_sessions := s.break_sessions,
            total_break_minutes := s.total_break_minutes,
            tasks_worked_on := [] } }
      { date := s.date, work_sessions := s.work_sessions,
        total_work_minutes := s.total_work_minutes,
        break_sessions := s.break_sessions,
        total_break_minutes := s.total_break_minutes,
        tasks_worked_on := [] }
      rfl rfl (fun nm hm => (htasks nm hm).2)]
    rw [List.foldl_cons,
      loadStep_session _ _ rfl (by simp), classify_blank_line,
      applySessionLine_other, List.foldl_nil]
    obtain ⟨d, a, b, c, e, ts⟩ := s
    rfl

theorem sessionLines_no_nl (s : PomodoroSession) (hwf : SessionWF s) :
    ∀ l ∈ sessionLines s, '\n' ∉ l := by
  obtain ⟨hdate, htasks⟩ := hwf
  intro l hl
  unfold sessionLines at hl
  simp only [List.mem_cons] at hl
  rcases hl with rfl | rfl | rfl | rfl | rfl | hl
  · intro hm
    rcases List.mem_append.mp hm with hm | hm
    · exact absurd hm (by decide)
    · exact formatDate_no_nl s.date hm
  · intro hm
    rcases List.mem_append.mp hm with hm | hm
    · exact absurd hm (by decide)
    · exact ((renderNat_chars _ _ hm).2.2.1) rfl
  · intro hm
    rcases List.mem_append.mp hm with hm | hm
    · rcases List.mem_append.mp hm with hm | hm
      · exact absurd hm (by decide)
      · exact ((renderNat_chars _ _ hm).2.2.1) rfl
    · exact absurd hm (by decide)
  · intro hm
    rcases List.mem_append.mp hm with hm | hm
    · exact absurd hm (by decide)
    · exact ((renderNat_chars _ _ hm).2.2.1) rfl
  · intro hm
    rcases List.mem_append.mp hm with hm | hm
    · rcases List.mem_append.mp hm with hm | hm
      · exact absurd hm (by decide)
      · exact ((renderNat_chars _ _ hm).2.2.1) rfl
    · exact absurd hm (by decide)
  · rcases List.mem_append.mp hl with hl | hl
    · by_cases he : s.tasks_worked_on.isEmpty = true
      · rw [if_pos he] at hl
        simp at hl
      · rw [if_neg he] at hl
        rcases List.mem_cons.mp hl with rfl | hl
        · exact (by decide : '\n' ∉ "- Tasks worked on:".data)
        · obtain ⟨nm, hnm, rfl⟩ := List.mem_map.mp hl
          intro hm
          rcases List.mem_append.mp hm with hm | hm
          · exact absurd hm (by decide)
          · exact (htasks nm hnm).1 hm
    · rcases List.mem_cons.mp hl with rfl | hl
      · exact List.not_mem_nil '\n'
      · simp at hl

theorem saveLines_empty_no_nl (ss : List PomodoroSession)
    (hwf : ∀ s ∈ ss, SessionWF s) :
    ∀ l ∈ saveLines [] ss, '\n' ∉ l := by
  intro l hl
  unfold saveLines at hl
  simp only [List.map_nil, List.flatten_nil, List.append_nil, List.nil_append] at hl
  rcases List.mem_append.mp hl with hl | hl
  · rcases List.mem_cons.mp hl with rfl | hl
    · exact (by decide : '\n' ∉ "# TODO List".data)
    · rcases List.mem_cons.mp hl with rfl | hl
      · exact List.not_mem_nil '\n'
      · simp at hl
  · by_cases he : ss.isEmpty = true
    · rw [if_pos he] at hl
      simp at hl
    · rw [if_neg he] at hl
      rcases List.mem_cons.mp hl with rfl | hl
      · exact List.not_mem_nil '\n'
      · rcases List.mem_cons.mp hl with rfl | hl
        · exact (by decide : '\n' ∉ "## Pomodoro Sessions".data)
        · rcases List.mem_cons.mp hl with rfl | hl
          · exact List.not_mem_nil '\n'
          · obtain ⟨block, hblock, hlb⟩ := List.mem_flatten.mp hl
            obtain ⟨s, hs, rfl⟩ := List.mem_map.mp hblock
            exact sessionLines_no_nl s (hwf s hs) l hlb

theorem foldl_session_blocks (ss : List PomodoroSession) :
    ∀ st : LoadState, st.in_pomodoro = true → (∀ s ∈ ss, SessionWF s) →
    (((ss.map sessionLines).flatten).foldl loadStep st).items = st.items
    ∧ (((ss.map sessionLines).flatten).foldl loadStep st).sessions
        ++ curList (((ss.map sessionLines).flatten).foldl loadStep st)
      = st.sessions ++ curList st ++ ss := by
  induction ss with
  | nil =>
    intro st _ _
    simp
  | cons s rest ih =>
    intro st hpom hwf
    rw [List.map_cons, List.flatten_cons, List.foldl_append]
    rw [foldl_session_lines s (hwf s (List.mem_cons_self s rest)) st hpom]
    obtain ⟨h1, h2⟩ := ih
      { items := (flushCur st).items, sessions := (flushCur st).sessions,
        in_pomodoro := true, current := some s }
      rfl (fun x hx => hwf x (List.mem_cons_of_mem _ hx))
    refine ⟨?_, ?_⟩
    · rw [h1]
      exact flushCur_items st
    · rw [h2]
      show (flushCur st).sessions ++ [s] ++ rest = st.sessions ++ curList st ++ (s :: rest)
      unfold flushCur curList
      cases st.current <;> simp

theorem loadContent_saveContent (ss : List PomodoroSession)
    (hwf : ∀ s ∈ ss, SessionWF s) :
    loadContent (saveContent [] ss) = ([], ss) := by
  cases hss : ss with
  | nil => decide
  | cons s rest =>
    have hwf' : ∀ x ∈ s :: rest, SessionWF x := hss ▸ hwf
    have hlines : saveLines [] (s :: rest)
        = ["# TODO List".data, [], [], "## Pomodoro Sessions".data, []]
          ++ ((s :: rest).map sessionLines).flatten := rfl
    have hnl : ∀ l ∈ saveLines [] (s :: rest), '\n' ∉ l := saveLines_empty_no_nl _ hwf'
    have hdata : (saveContent [] (s :: rest)).data = joinLines (saveLines [] (s :: rest)) := rfl
    unfold loadContent
    rw [hdata, rustLines_joinLines _ hnl, hlines, List.foldl_append]
    have hpre : (["# TODO List".data, [], [], "## Pomodoro Sessions".data, []].foldl loadStep
        ⟨[], [], false, none⟩) = (⟨[], [], true, none⟩ : LoadState) := by decide
    rw [hpre]
    obtain ⟨h1, h2⟩ := foldl_session_blocks (s :: rest) ⟨[], [], true, none⟩ rfl hwf'
    rw [Prod.mk.injEq]
    refine ⟨h1, ?_⟩
    rw [h2]
    rfl

/-! # Claim C7: persisted daily-session round trip -/

/-- C7 counterexample: a daily session whose task list contains the name
"Tasks worked on:" does not survive the save/load round trip — the loader's
task-line exclusion check drops that entry — so the round trip is not
lossless for every date→DailySession map. -/
theorem claim_C7_counterexample :
    (loadContent (saveContent [] [poisonSession])).2 ≠ [poisonSession] := by
  decide

/-- C7 (amended): serializing any date→DailySession sequence whose dates are
valid and whose task names neither embed a newline nor begin with the
literal "Tasks worked on:" and deserializing it back is lossless
field-for-field; deserialization (a total function) skips a block with an
unparsable date header while keeping the well-formed blocks before and after
it. -/
theorem claim_C7_roundtrip (ss : List PomodoroSession)
    (hwf : ∀ s ∈ ss, SessionWF s) :
    (loadContent (saveContent [] ss)).2 = ss
    ∧ loadContent malformedContent = ([], [goodBlockA, goodBlockB]) := by
  refine ⟨?_, by decide⟩
  rw [loadContent_saveContent ss hwf]

theorem claim_C7_witness :
    (loadContent (saveContent [] [goodBlockA])).2 = [goodBlockA] :=
  (claim_C7_roundtrip [goodBlockA] (by decide)).1

end Sessio
